import Mathlib

/-!
Shallow embedding of the move-synchronisation and matchmaking code of the
tkhumush/Chess repository: `src/lib/nostr.ts`, `src/services/gameService.ts`,
the React hooks file (`useNostr` / `useGameOffers` / `useGameMoves`) and
`src/stores/appStore.ts`.

Conventions of the embedding:
* Machine numbers are modelled as `Int` / `Nat`.
* Values derived from `Date.now()` are passed in explicitly as a `now : Int`
  parameter (unix seconds, as the code computes `Math.floor(Date.now() / 1000)`).
* Throwing code paths are modelled with `Option` (`none` = thrown error).
* Cryptographic signing (`finalizeEvent` of nostr-tools) is external to the
  repository, so event construction is modelled up to the unsigned template:
  kind, content, tags and created_at - exactly the fields the repository
  computes in `createEventTemplate` before handing off to `signEvent`.
* The relay side of `querySync` / `subscribe` (kind, `#game`, `#t`, `limit`
  filters) is external transport; the functions below receive the event list
  the transport returned and model the local computation on it.
-/

/-- A signed Nostr event as received from relays.  The signature string is
omitted: the code under verification never reads it (`validateEventSignature`
only checks field presence). -/
structure NostrEvent where
  id : String
  pubkey : String
  created_at : Int
  kind : Nat
  tags : List (List String)
  content : String
deriving DecidableEq

/-- An unsigned event template as built by `createEventTemplate`
(src/lib/nostr.ts): kind, content, tags, created_at. -/
structure EventTemplate where
  kind : Nat
  content : String
  tags : List (List String)
  created_at : Int
deriving DecidableEq

/-- Model of `getTagValue` (src/lib/nostr.ts) on a raw tag list:
`event.tags.find(t => t[0] === tagName)`, then `tag ? tag[1] : undefined`. -/
def findTagValue (tags : List (List String)) (tagName : String) : Option String :=
  match tags.find? (fun t => t.head? == some tagName) with
  | some t => t[1]?
  | none => none

/-- `getTagValue` applied to a received event. -/
def getTagValue (event : NostrEvent) (tagName : String) : Option String :=
  findTagValue event.tags tagName

/-- `getTagValue` applied to an unsigned template (signing does not change
the tag list, so the published event carries exactly these tags). -/
def getTagValueT (t : EventTemplate) (tagName : String) : Option String :=
  findTagValue t.tags tagName

/-- Numeric value of a run of decimal digit characters. -/
def digitsVal (ds : List Char) : Nat :=
  ds.foldl (fun a c => a * 10 + (c.toNat - 48)) 0

/-- The longest run of decimal digits at the front of the character list;
`none` when the list does not start with a digit. -/
def leadingDigitsVal (cs : List Char) : Option Nat :=
  let ds := cs.takeWhile Char.isDigit
  if ds.isEmpty then none else some (digitsVal ds)

/-- Model of JavaScript `parseInt(s)` with base-10 input: leading whitespace
is skipped, an optional sign is consumed, and the longest run of leading
decimal digits is parsed; `none` models the `NaN` result when no digit is
present.  (The hexadecimal `0x` literal branch of `parseInt` is not
modelled: every call site parses tag values that were written via
`Number.prototype.toString`.) -/
def jsParseInt (s : String) : Option Int :=
  match s.data.dropWhile Char.isWhitespace with
  | '-' :: r => (leadingDigitsVal r).map (fun n => -(n : Int))
  | '+' :: r => (leadingDigitsVal r).map (fun n => (n : Int))
  | r => (leadingDigitsVal r).map (fun n => (n : Int))

/-- Model of the JavaScript expression `v || d` for an optional string `v`:
`undefined` and the empty string are falsy and yield the default. -/
def jsOr (v : Option String) (d : String) : String :=
  match v with
  | none => d
  | some s => if s = "" then d else s

/-- Model of JavaScript `x > n` where `x` may be `NaN` (`none`):
`NaN > n` is false. -/
def jsGt (x : Option Int) (n : Int) : Bool :=
  match x with
  | some v => decide (n < v)
  | none => false

/-- Model of JavaScript `x < n` where `x` may be `NaN` (`none`):
`NaN < n` is false. -/
def jsLt (x : Option Int) (n : Int) : Bool :=
  match x with
  | some v => decide (v < n)
  | none => false

/-- The sort key shared by the two move-sorting comparators:
`parseInt(getTagValue(a, 'move') || '0')` in `GameService.getGameMoves`, and
the textually identical inline expression in the `useGameMoves` subscription
handler. -/
def moveKeyQ (e : NostrEvent) : Option Int :=
  jsParseInt (jsOr (getTagValue e "move") "0")

/-- Boolean rendering of the JS comparator `moveA - moveB` handed to
`Array.prototype.sort`: `true` means "a need not come after b", i.e. the
comparator result is ≤ 0.  When either key is `NaN` the subtraction is `NaN`,
which the sort treats as 0 (keep relative order); that case is modelled as a
tie. -/
def moveLe (a b : NostrEvent) : Bool :=
  match moveKeyQ a, moveKeyQ b with
  | some x, some y => decide (x ≤ y)
  | _, _ => true

/-- The comparator as a decidable relation, for use with the sort. -/
def MoveLeP (a b : NostrEvent) : Prop := moveLe a b = true

instance : DecidableRel MoveLeP :=
  fun a b => inferInstanceAs (Decidable (moveLe a b = true))

/-- Model of the stable `Array.prototype.sort` applied with the move-number
comparator (in `getGameMoves` and in the subscription handler of
`useGameMoves`).  `List.insertionSort` is a stable sort, matching the
ECMAScript stability guarantee for `Array.prototype.sort`. -/
def sortMoves (events : List NostrEvent) : List NostrEvent :=
  events.insertionSort MoveLeP

/-- Model of `GameService.getGameMoves`: the relay query (`kinds`, `#game`,
`limit: 200`) is transport-side; the local computation sorts the returned
events by their `move` tag. -/
def getGameMoves (events : List NostrEvent) : List NostrEvent :=
  sortMoves events

/-- Model of one step of the `useGameMoves` subscription handler (hooks
file): a newly delivered event is dropped when an event with the same id is
already present (`prev.find(e => e.id === event.id)`), otherwise it is
appended and the list re-sorted by move number. -/
def useGameMovesInsert (prev : List NostrEvent) (event : NostrEvent) : List NostrEvent :=
  if prev.any (fun e => e.id == event.id) then prev
  else sortMoves (prev ++ [event])

/-- Erase the advisory `created_at` timestamp of an event (set it to 0).
Two event lists are "identical except for timestamps" iff they agree after
mapping `stripTime`. -/
def stripTime (e : NostrEvent) : NostrEvent := { e with created_at := 0 }

/-- `CHESS_KINDS.GAME_OFFER` (src/lib/nostr.ts). -/
def GAME_OFFER : Nat := 1491

/-- `CHESS_KINDS.LIVE_GAME` (src/lib/nostr.ts). -/
def LIVE_GAME : Nat := 34609

/-- `CHESS_KINDS.FINAL_ARCHIVE` (src/lib/nostr.ts). -/
def FINAL_ARCHIVE : Nat := 64

/-- Model of `createEventTemplate` (src/lib/nostr.ts); `created_at` is the
invocation time `Math.floor(Date.now() / 1000)`, passed in as `now`. -/
def createEventTemplate (kind : Nat) (content : String) (tags : List (List String))
    (now : Int) : EventTemplate :=
  { kind := kind, content := content, tags := tags, created_at := now }

/-- The offer parameter record taken by `createGameOfferEvent` and
`GameService.publishGameOffer` (all fields are plain strings in the code). -/
structure OfferParams where
  variant : String
  skillLevel : String
  timeControl : String
  message : Option String
deriving DecidableEq

/-- A JSON string literal (escaping of special characters is not modelled;
no claim reads the content field). -/
def jsonQuote (s : String) : String := "\"" ++ s ++ "\""

/-- Model of `JSON.stringify(offer)` for the offer record: fields in object
literal order, with an `undefined` message omitted. -/
def offerContentJson (o : OfferParams) : String :=
  "\x7b\"variant\":" ++ jsonQuote o.variant
    ++ ",\"skillLevel\":" ++ jsonQuote o.skillLevel
    ++ ",\"timeControl\":" ++ jsonQuote o.timeControl
    ++ (match o.message with
        | some m => ",\"message\":" ++ jsonQuote m
        | none => "")
    ++ "\x7d"

/-- Model of `createGameOfferEvent` (src/lib/nostr.ts): kind 1491 with topic,
skill, variant, time tags and an `expires` tag of now + 300 seconds. -/
def createGameOfferEvent (offer : OfferParams) (now : Int) : EventTemplate :=
  createEventTemplate GAME_OFFER (offerContentJson offer)
    [["t", "chess-offer"],
     ["skill", offer.skillLevel],
     ["variant", offer.variant],
     ["time", offer.timeControl],
     ["expires", toString (now + 300)]] now

/-- Model of `createMoveEvent` (src/lib/nostr.ts).  JavaScript `%` is a
truncated remainder, hence `Int.tmod`. -/
def createMoveEvent (gameId : String) (moveNumber : Int)
    (san fen whitePubkey blackPubkey : String)
    (previousEventId : Option String) (now : Int) : EventTemplate :=
  let turn := if Int.tmod moveNumber 2 = 1 then "white" else "black"
  let tags :=
    [["d", "game-" ++ gameId],
     ["game", gameId],
     ["move", toString moveNumber],
     ["turn", turn],
     ["san", san],
     ["fen", fen],
     ["p", whitePubkey],
     ["p", blackPubkey]]
  let tags := match previousEventId with
    | some pid => tags ++ [["e", pid]]
    | none => tags
  createEventTemplate LIVE_GAME san tags now

/-- Model of `createGameArchiveEvent` (src/lib/nostr.ts): kind 64 with the
PGN as content. -/
def createGameArchiveEvent (pgn gameId whitePubkey blackPubkey result variant : String)
    (now : Int) : EventTemplate :=
  createEventTemplate FINAL_ARCHIVE pgn
    [["t", "chess-game"],
     ["game", gameId],
     ["white", whitePubkey],
     ["black", blackPubkey],
     ["result", result],
     ["variant", variant]] now

/-- Model of `GameService.publishGameOffer`: throws when no private key was
set by `initialize` (the `initialized` flag models `this.privateKey !== null`,
`none` models the thrown error), otherwise builds the offer event, publishes
it and returns it.  The published event equals the returned one. -/
def publishGameOffer (initialized : Bool) (offer : OfferParams) (now : Int) :
    Option EventTemplate :=
  if initialized then some (createGameOfferEvent offer now) else none

/-- Model of `GameService.archiveGame`: throws when uninitialized, otherwise
builds the archive event, publishes it and returns it. -/
def archiveGame (initialized : Bool) (pgn gameId whitePubkey blackPubkey result variant : String)
    (now : Int) : Option EventTemplate :=
  if initialized then
    some (createGameArchiveEvent pgn gameId whitePubkey blackPubkey result variant now)
  else none

/-- Model of the expiry filter inside `GameService.getAvailableOffers`:
`if (!expiresTag) return true; return parseInt(expiresTag) > now`.
An absent or empty `expires` tag is falsy, so such events are kept. -/
def getAvailableOffersKeep (now : Int) (e : NostrEvent) : Bool :=
  match getTagValue e "expires" with
  | none => true
  | some s => if s = "" then true else jsGt (jsParseInt s) now

/-- Model of `GameService.getAvailableOffers` applied to the events returned
by the relay query: the local step filters by the expiry check. -/
def getAvailableOffers (now : Int) (events : List NostrEvent) : List NostrEvent :=
  events.filter (getAvailableOffersKeep now)

/-- Model of the delivery decision in `GameService.subscribeToGameOffers`:
an incoming event is forwarded to `onOffer` unless it carries a truthy
`expires` tag whose parsed value is strictly below the current time
(`if (expires < Math.floor(Date.now() / 1000)) return`). -/
def subscribeToGameOffersDelivers (now : Int) (e : NostrEvent) : Bool :=
  match getTagValue e "expires" with
  | none => true
  | some s => if s = "" then true else !jsLt (jsParseInt s) now

/-- Model of `GameService.getGameArchive`: the relay query (kind 64, `#game`,
`limit: 1`) is transport-side; locally `events[0] || null`. -/
def getGameArchive (events : List NostrEvent) : Option NostrEvent :=
  events.head?

/-- The fields of a locally stored `GameOffer` (src/types/chess.ts) that the
store actions read; presentation-only fields (skill level, variant, time
control, message) are omitted as no store action inspects them. -/
structure GameOffer where
  id : String
  pubkey : String
  eventId : String
  expires : Int
deriving DecidableEq

/-- Model of the `cancelGameOffer` store action (src/stores/appStore.ts):
`set(state => ({ myOffers: state.myOffers.filter(offer => offer.id !== offerId) }))`.
The action reads no other state, has no failure path and calls no
publishing code. -/
def cancelGameOffer (myOffers : List GameOffer) (offerId : String) : List GameOffer :=
  myOffers.filter (fun offer => offer.id != offerId)

/-- The enumerated skill tiers: the `SkillLevel` union type of
src/types/chess.ts. -/
def skillLevels : List String :=
  ["total-beginner", "beginner", "intermediate", "advanced", "master"]

/-! ### Properties of the move comparator -/

/-- The comparator is total: the JS comparator returns a value that is ≤ 0
in at least one of the two orders. -/
theorem moveLe_total (a b : NostrEvent) : moveLe a b = true ∨ moveLe b a = true := by
  unfold moveLe
  rcases moveKeyQ a with _ | x <;> rcases moveKeyQ b with _ | y <;> simp
  exact le_total x y

/-- The comparator on two events with parsed keys compares the keys. -/
theorem moveLe_eq_decide {a b : NostrEvent} {x y : Int}
    (hx : moveKeyQ a = some x) (hy : moveKeyQ b = some y) :
    moveLe a b = decide (x ≤ y) := by
  unfold moveLe
  rw [hx, hy]

/-- The comparator ties when the left key is `NaN`. -/
theorem moveLe_none_l {a b : NostrEvent} (hx : moveKeyQ a = none) :
    moveLe a b = true := by
  unfold moveLe
  rw [hx]

/-- The comparator ties when the right key is `NaN`. -/
theorem moveLe_none_r {a b : NostrEvent} (hy : moveKeyQ b = none) :
    moveLe a b = true := by
  unfold moveLe
  rw [hy]
  rcases moveKeyQ a with _ | x <;> rfl

/-- The comparator is transitive whenever the middle event's key parses. -/
theorem moveLe_trans_mid {a b c : NostrEvent} (hb : (moveKeyQ b).isSome = true)
    (h1 : moveLe a b = true) (h2 : moveLe b c = true) : moveLe a c = true := by
  rcases hA : moveKeyQ a with _ | x
  · exact moveLe_none_l hA
  rcases hC : moveKeyQ c with _ | z
  · exact moveLe_none_r hC
  rcases hB : moveKeyQ b with _ | y
  · rw [hB] at hb; simp at hb
  rw [moveLe_eq_decide hA hB] at h1
  rw [moveLe_eq_decide hB hC] at h2
  rw [moveLe_eq_decide hA hC]
  simp only [decide_eq_true_eq] at h1 h2 ⊢
  exact le_trans h1 h2

/-- Strict key order on events: both move keys parse and the first is
strictly smaller.  With pairwise-distinct keys this is the order realised by
the sorted chain. -/
def MoveLt (a b : NostrEvent) : Prop :=
  ∃ x y, moveKeyQ a = some x ∧ moveKeyQ b = some y ∧ x < y

instance : IsAntisymm NostrEvent MoveLt where
  antisymm a b h1 h2 := by
    obtain ⟨x, y, hax, hby, hxy⟩ := h1
    obtain ⟨v, w, hbv, haw, hvw⟩ := h2
    rw [hax] at haw
    rw [hby] at hbv
    injection haw with haw
    injection hbv with hbv
    subst haw
    subst hbv
    omega

/-- A sorted pair with parseable, distinct keys is strictly ordered. -/
theorem moveLt_of_le_ne {a b : NostrEvent} (ha : (moveKeyQ a).isSome = true)
    (hb : (moveKeyQ b).isSome = true) (hle : MoveLeP a b)
    (hne : moveKeyQ a ≠ moveKeyQ b) : MoveLt a b := by
  obtain ⟨x, hx⟩ := Option.isSome_iff_exists.mp ha
  obtain ⟨y, hy⟩ := Option.isSome_iff_exists.mp hb
  refine ⟨x, y, hx, hy, ?_⟩
  unfold MoveLeP moveLe at hle
  rw [hx, hy] at hle
  simp only [decide_eq_true_eq] at hle
  have hxy : x ≠ y := fun heq => hne (by rw [hx, hy, heq])
  omega

/-! ### The sort used by getGameMoves and the subscription handler -/

/-- The sort permutes its input (`Array.prototype.sort` sorts in place). -/
theorem sortMoves_perm (l : List NostrEvent) : List.Perm (sortMoves l) l :=
  List.perm_insertionSort MoveLeP l

/-- Inserting an event with a parseable key into a sorted list of events
with parseable keys keeps the list sorted. -/
theorem sorted_orderedInsert_mv (a : NostrEvent) (l : List NostrEvent)
    (hl : ∀ e ∈ l, (moveKeyQ e).isSome = true)
    (h : List.Sorted MoveLeP l) : List.Sorted MoveLeP (l.orderedInsert MoveLeP a) := by
  induction l with
  | nil => simp [List.sorted_singleton]
  | cons b t ih =>
    by_cases hab : MoveLeP a b
    · rw [List.orderedInsert, if_pos hab, List.sorted_cons]
      refine ⟨?_, h⟩
      intro c hc
      rcases List.mem_cons.mp hc with rfl | hct
      · exact hab
      · exact moveLe_trans_mid (hl b (List.mem_cons_self b t)) hab
          (List.rel_of_sorted_cons h c hct)
    · rw [List.orderedInsert, if_neg hab, List.sorted_cons]
      constructor
      · intro c hc
        rcases (List.mem_orderedInsert MoveLeP).mp hc with rfl | hct
        · exact (moveLe_total _ b).resolve_left hab
        · exact List.rel_of_sorted_cons h c hct
      · exact ih (fun e he => hl e (List.mem_cons_of_mem b he)) (List.sorted_cons.mp h).2

/-- The sort output is sorted by the comparator whenever all keys parse. -/
theorem sorted_sortMoves (l : List NostrEvent)
    (hl : ∀ e ∈ l, (moveKeyQ e).isSome = true) :
    List.Sorted MoveLeP (sortMoves l) := by
  induction l with
  | nil => exact List.sorted_nil
  | cons a t ih =>
    rw [sortMoves, List.insertionSort]
    refine sorted_orderedInsert_mv a (t.insertionSort MoveLeP) ?_ ?_
    · intro e he
      exact hl e (List.mem_cons_of_mem a ((List.mem_insertionSort MoveLeP).mp he))
    · have := ih (fun e he => hl e (List.mem_cons_of_mem a he))
      rwa [sortMoves] at this

/-- With parseable, pairwise-distinct keys the sorted output is strictly
sorted by key. -/
theorem sorted_lt_sortMoves (l : List NostrEvent)
    (hp : ∀ e ∈ l, (moveKeyQ e).isSome = true)
    (hd : l.Pairwise (fun a b => moveKeyQ a ≠ moveKeyQ b)) :
    List.Sorted MoveLt (sortMoves l) := by
  have hle : List.Sorted MoveLeP (sortMoves l) := sorted_sortMoves l hp
  have hperm : List.Perm (sortMoves l) l := sortMoves_perm l
  have hd2 : (sortMoves l).Pairwise (fun a b => moveKeyQ a ≠ moveKeyQ b) :=
    (List.Perm.pairwise_iff (fun h => Ne.symm h) hperm).mpr hd
  have hp2 : ∀ e ∈ sortMoves l, (moveKeyQ e).isSome = true :=
    fun e he => hp e (hperm.mem_iff.mp he)
  have hcomb := List.Pairwise.and_mem.mp (hle.and hd2)
  exact hcomb.imp (fun h =>
    moveLt_of_le_ne (hp2 _ h.1) (hp2 _ h.2.1) h.2.2.1 h.2.2.2)

/-- Under the hypotheses of a valid non-forking move set (all move keys
parse and are pairwise distinct), the sort result only depends on the set of
events, not on the delivery order. -/
theorem sortMoves_eq_of_perm {l1 l2 : List NostrEvent} (h : List.Perm l1 l2)
    (hp : ∀ e ∈ l1, (moveKeyQ e).isSome = true)
    (hd : l1.Pairwise (fun a b => moveKeyQ a ≠ moveKeyQ b)) :
    sortMoves l1 = sortMoves l2 := by
  have hp2 : ∀ e ∈ l2, (moveKeyQ e).isSome = true :=
    fun e he => hp e (h.mem_iff.mpr he)
  have hd2 : l2.Pairwise (fun a b => moveKeyQ a ≠ moveKeyQ b) :=
    (List.Perm.pairwise_iff (fun hx => Ne.symm hx) h).mp hd
  exact List.eq_of_perm_of_sorted
    ((sortMoves_perm l1).trans (h.trans (sortMoves_perm l2).symm))
    (sorted_lt_sortMoves l1 hp hd)
    (sorted_lt_sortMoves l2 hp2 hd2)

/-- Folding the subscription handler over a valid non-forking move set
(distinct ids, parseable distinct keys) reconstructs exactly the sorted
chain, whatever the delivery order. -/
theorem foldl_useGameMovesInsert_eq (l : List NostrEvent)
    (hp : ∀ e ∈ l, (moveKeyQ e).isSome = true)
    (hd : l.Pairwise (fun a b => moveKeyQ a ≠ moveKeyQ b))
    (hi : l.Pairwise (fun a b => a.id ≠ b.id)) :
    List.foldl useGameMovesInsert [] l = sortMoves l := by
  induction l using List.reverseRecOn with
  | nil => rfl
  | append_singleton t e ih =>
    rw [List.pairwise_append] at hd hi
    obtain ⟨hd1, _, hdc⟩ := hd
    obtain ⟨hi1, _, hic⟩ := hi
    have hp1 : ∀ x ∈ t, (moveKeyQ x).isSome = true :=
      fun x hx => hp x (List.mem_append_left _ hx)
    rw [List.foldl_append, List.foldl_cons, List.foldl_nil, ih hp1 hd1 hi1]
    have hnotin : (sortMoves t).any (fun x => x.id == e.id) = false := by
      rw [List.any_eq_false]
      intro x hx
      have hxt : x ∈ t := (sortMoves_perm t).mem_iff.mp hx
      simp only [beq_iff_eq]
      exact hic x hxt e (List.mem_singleton_self e)
    rw [useGameMovesInsert, if_neg (by rw [hnotin]; exact Bool.false_ne_true)]
    apply sortMoves_eq_of_perm (List.Perm.append_right [e] (sortMoves_perm t))
    · intro x hx
      rcases List.mem_append.mp hx with hx1 | hx2
      · exact hp1 x ((sortMoves_perm t).mem_iff.mp hx1)
      · rw [List.mem_singleton] at hx2
        subst hx2
        exact hp x (List.mem_append_right _ (List.mem_singleton_self x))
    · rw [List.pairwise_append]
      refine ⟨(List.Perm.pairwise_iff (fun hx => Ne.symm hx) (sortMoves_perm t)).mpr hd1,
        List.pairwise_singleton _ _, ?_⟩
      intro x hx b hb
      rw [List.mem_singleton] at hb
      subst hb
      exact hdc x ((sortMoves_perm t).mem_iff.mp hx) b (List.mem_singleton_self b)

/-! ### Claim theorems -/

/-- C1: for every set of valid, non-forking move events of one session
(pairwise-distinct move-index tags, distinct event ids, parseable indices),
every permutation of the delivery order yields the same ordered move list
and the same sequence of resulting-position `fen` tags, both through the
`getGameMoves` sort and through folding the subscription insert of
`useGameMoves`: the reconstructed chain is a function of the event set
only. -/
theorem c1_order_independence (l1 l2 : List NostrEvent)
    (hperm : List.Perm l1 l2)
    (hsome : ∀ e ∈ l1, (moveKeyQ e).isSome = true)
    (hkeys : l1.Pairwise (fun a b => moveKeyQ a ≠ moveKeyQ b))
    (hids : l1.Pairwise (fun a b => a.id ≠ b.id)) :
    getGameMoves l1 = getGameMoves l2 ∧
    (getGameMoves l1).map (fun e => getTagValue e "fen") =
      (getGameMoves l2).map (fun e => getTagValue e "fen") ∧
    List.foldl useGameMovesInsert [] l1 = List.foldl useGameMovesInsert [] l2 := by
  have h1 : sortMoves l1 = sortMoves l2 := sortMoves_eq_of_perm hperm hsome hkeys
  have hsome2 : ∀ e ∈ l2, (moveKeyQ e).isSome = true :=
    fun e he => hsome e (hperm.mem_iff.mpr he)
  have hkeys2 : l2.Pairwise (fun a b => moveKeyQ a ≠ moveKeyQ b) :=
    (List.Perm.pairwise_iff (fun hx => Ne.symm hx) hperm).mp hkeys
  have hids2 : l2.Pairwise (fun a b => a.id ≠ b.id) :=
    (List.Perm.pairwise_iff (fun hx => Ne.symm hx) hperm).mp hids
  refine ⟨h1, by rw [getGameMoves, getGameMoves, h1], ?_⟩
  rw [foldl_useGameMovesInsert_eq l1 hsome hkeys hids,
    foldl_useGameMovesInsert_eq l2 hsome2 hkeys2 hids2, h1]

/-- First sample move (white, ply 1) for the C1 witness. -/
def c1m1 : NostrEvent :=
  { id := "a1", pubkey := "pw", created_at := 5, kind := 34609,
    tags := [["game", "g1"], ["move", "1"], ["san", "e4"], ["fen", "f1"]],
    content := "e4" }

/-- Second sample move (black, ply 2) for the C1 witness. -/
def c1m2 : NostrEvent :=
  { id := "b2", pubkey := "pb", created_at := 4, kind := 34609,
    tags := [["game", "g1"], ["move", "2"], ["san", "e5"], ["fen", "f2"], ["e", "a1"]],
    content := "e5" }

/-- Witness for C1 at the two delivery orders of a two-move chain. -/
theorem c1_witness :
    List.Perm [c1m2, c1m1] [c1m1, c1m2] ∧
    (∀ e ∈ [c1m2, c1m1], (moveKeyQ e).isSome = true) ∧
    ([c1m2, c1m1].Pairwise (fun a b => moveKeyQ a ≠ moveKeyQ b)) ∧
    ([c1m2, c1m1].Pairwise (fun a b => a.id ≠ b.id)) ∧
    (getGameMoves [c1m2, c1m1] = getGameMoves [c1m1, c1m2] ∧
     (getGameMoves [c1m2, c1m1]).map (fun e => getTagValue e "fen") =
       (getGameMoves [c1m1, c1m2]).map (fun e => getTagValue e "fen") ∧
     List.foldl useGameMovesInsert [] [c1m2, c1m1] =
       List.foldl useGameMovesInsert [] [c1m1, c1m2]) :=
  ⟨by decide, by decide, by decide, by decide,
   c1_order_independence [c1m2, c1m1] [c1m1, c1m2]
     (by decide) (by decide) (by decide) (by decide)⟩

/-- The comparator never reads `created_at`: it is invariant under
`stripTime`. -/
theorem moveLe_stripTime (a b : NostrEvent) :
    MoveLeP (stripTime a) (stripTime b) ↔ MoveLeP a b := Iff.rfl

/-- C6: move sequencing never depends on timestamps.  For any two event
lists that are identical except for the events' `created_at` fields (they
agree after `stripTime`), `getGameMoves` returns the moves in the same
order with the same content: the sorted lists again agree after
`stripTime`, and in particular the sequence of event ids is identical. -/
theorem c6_timestamp_independence (l1 l2 : List NostrEvent)
    (h : l1.map stripTime = l2.map stripTime) :
    (getGameMoves l1).map stripTime = (getGameMoves l2).map stripTime ∧
    (getGameMoves l1).map (fun e => e.id) = (getGameMoves l2).map (fun e => e.id) := by
  have key : ∀ l : List NostrEvent,
      (getGameMoves l).map stripTime = (l.map stripTime).insertionSort MoveLeP := by
    intro l
    exact List.map_insertionSort (r := MoveLeP) (s := MoveLeP) stripTime l
      (fun a _ b _ => (moveLe_stripTime a b).symm)
  have h1 : (getGameMoves l1).map stripTime = (getGameMoves l2).map stripTime := by
    rw [key, key, h]
  have hid : ∀ l : List NostrEvent,
      (l.map stripTime).map (fun e => e.id) = l.map (fun e => e.id) := by
    intro l
    rw [List.map_map]
    rfl
  refine ⟨h1, ?_⟩
  calc (getGameMoves l1).map (fun e => e.id)
      = ((getGameMoves l1).map stripTime).map (fun e => e.id) := (hid _).symm
    _ = ((getGameMoves l2).map stripTime).map (fun e => e.id) := by rw [h1]
    _ = (getGameMoves l2).map (fun e => e.id) := hid _

/-- Sample move for the C6 witness. -/
def c6ev1 : NostrEvent :=
  { id := "m1", pubkey := "pw", created_at := 10, kind := 34609,
    tags := [["game", "g1"], ["move", "1"], ["san", "e4"]], content := "e4" }

/-- The same move with a different advisory timestamp. -/
def c6ev2 : NostrEvent :=
  { id := "m1", pubkey := "pw", created_at := 999999, kind := 34609,
    tags := [["game", "g1"], ["move", "1"], ["san", "e4"]], content := "e4" }

/-- Witness for C6 on a pair of lists differing only in `created_at`. -/
theorem c6_witness :
    ([c6ev1].map stripTime = [c6ev2].map stripTime) ∧
    ((getGameMoves [c6ev1]).map stripTime = (getGameMoves [c6ev2]).map stripTime ∧
     (getGameMoves [c6ev1]).map (fun e => e.id) =
       (getGameMoves [c6ev2]).map (fun e => e.id)) :=
  ⟨by decide, c6_timestamp_independence [c6ev1] [c6ev2] (by decide)⟩

/-- C3: move ingestion is idempotent.  For every reconstructed move-list
state and every event whose id is already present in that state, delivering
the event (again) through the `useGameMoves` subscription handler leaves the
move list unchanged: events are deduplicated by event identity. -/
theorem c3_idempotent_ingestion (prev : List NostrEvent) (event : NostrEvent)
    (h : prev.any (fun e => e.id == event.id) = true) :
    useGameMovesInsert prev event = prev := by
  rw [useGameMovesInsert, if_pos h]

/-- Sample move for the C3 witness. -/
def c3ev : NostrEvent :=
  { id := "m1", pubkey := "pw", created_at := 1, kind := 34609,
    tags := [["game", "g1"], ["move", "1"], ["san", "e4"]], content := "e4" }

/-- Witness for C3: redelivering the only accepted move is a no-op. -/
theorem c3_witness :
    ([c3ev].any (fun e => e.id == c3ev.id) = true) ∧
    useGameMovesInsert [c3ev] c3ev = [c3ev] :=
  ⟨by decide, c3_idempotent_ingestion [c3ev] c3ev (by decide)⟩

/-- The first accepted move (ply 1) for the C2 fork scenario. -/
def c2root : NostrEvent :=
  { id := "r1", pubkey := "pw", created_at := 1, kind := 34609,
    tags := [["game", "g1"], ["move", "1"], ["san", "e4"]], content := "e4" }

/-- First black reply referencing the ply-1 move as parent. -/
def c2sib1 : NostrEvent :=
  { id := "s1", pubkey := "pb", created_at := 2, kind := 34609,
    tags := [["game", "g1"], ["move", "2"], ["san", "e5"], ["e", "r1"]],
    content := "e5" }

/-- Conflicting second black reply referencing the same parent: a fork. -/
def c2sib2 : NostrEvent :=
  { id := "s2", pubkey := "pb", created_at := 3, kind := 34609,
    tags := [["game", "g1"], ["move", "2"], ["san", "c5"], ["e", "r1"]],
    content := "c5" }

/-- C2 (failing on the code): two sibling move events with the same parent
reference and distinct ids are BOTH retained by the move-ingestion path -
the subscription handler deduplicates by id only, performs no parent-
conflict check, and no `forked` state exists (`GameStatus` in
src/types/chess.ts has no such variant).  The spec requires that neither
sibling be appended and the session transition to `forked`. -/
theorem c2_fork_not_detected :
    getTagValue c2sib1 "e" = getTagValue c2sib2 "e" ∧
    c2sib1.id ≠ c2sib2.id ∧
    List.foldl useGameMovesInsert [] [c2root, c2sib1, c2sib2] =
      [c2root, c2sib1, c2sib2] := by
  refine ⟨by decide, by decide, ?_⟩
  decide

/-- C4 counterexample: the `d` identifier tag produced by `createMoveEvent`
is `game-{gameId}` - it does not incorporate the move index, two different
plies of the same session share the same address key, and the key differs
from the claimed `session-{id}:move-{index}` format. -/
theorem c4_counterexample :
    getTagValueT (createMoveEvent "g1" 1 "e4" "f1" "pw" "pb" none 100) "d" =
      some "game-g1" ∧
    getTagValueT (createMoveEvent "g1" 2 "e5" "f2" "pw" "pb" (some "r1") 101) "d" =
      some "game-g1" ∧
    "game-g1" ≠ "session-g1:move-1" := by
  refine ⟨by decide, by decide, by decide⟩

/-- C4 (amended): every event built by `createMoveEvent` carries the
identifier tag `d` = `game-{gameId}`, which incorporates the session id
only.  All moves of one session therefore share a single address key: the
addressable guarantee is at most one live value per (author, session), not
per (session, move-index). -/
theorem c4_amended_address_key (gameId : String) (moveNumber : Int)
    (san fen w b : String) (prev : Option String) (now : Int) :
    getTagValueT (createMoveEvent gameId moveNumber san fen w b prev now) "d" =
      some ("game-" ++ gameId) := by
  cases prev <;>
    simp [createMoveEvent, createEventTemplate, getTagValueT, findTagValue, List.find?]

/-- C5 counterexample: `archiveGame` publishes unconditionally.  Both
players' finalization attempts (modelled as two initialized calls at
different instants) each publish an archive event, and the two published
records are distinct - so a second ArchiveRecord IS published even though
one has already been produced for the session. -/
theorem c5_counterexample :
    (archiveGame true "1. e4 e5" "g1" "pw" "pb" "1-0" "classical" 100).isSome = true ∧
    (archiveGame true "1. e4 e5" "g1" "pw" "pb" "1-0" "classical" 205).isSome = true ∧
    archiveGame true "1. e4 e5" "g1" "pw" "pb" "1-0" "classical" 100 ≠
      archiveGame true "1. e4 e5" "g1" "pw" "pb" "1-0" "classical" 205 := by
  refine ⟨by decide, by decide, by decide⟩

/-- C5 (amended): `archiveGame` performs no idempotence check - its publish
decision depends only on whether the service is initialized, never on an
already-observed ArchiveRecord (which is not even an input of the code
path); uniqueness of the surfaced record comes only from the reader side,
where `getGameArchive` returns just the first queried event. -/
theorem c5_amended_unconditional_publish (initialized : Bool)
    (pgn gameId w b result variant : String) (now : Int) :
    ((archiveGame initialized pgn gameId w b result variant now).isSome = true ↔
      initialized = true) ∧
    (∀ events : List NostrEvent, (getGameArchive events).toList.length ≤ 1) := by
  constructor
  · cases initialized <;> simp [archiveGame]
  · intro events
    cases h : getGameArchive events <;> simp

/-- C7 counterexample: an offer whose `expires` tag equals the current time
is still delivered by the offer subscription (the code drops only
`expires < now`), although its expiration is not strictly later than now;
and an offer with no `expires` tag at all is kept by `getAvailableOffers`. -/
def c7offerEq : NostrEvent :=
  { id := "o1", pubkey := "alice", created_at := 50, kind := 1491,
    tags := [["t", "chess-offer"], ["expires", "100"]], content := "x" }

/-- An offer event carrying no `expires` tag. -/
def c7offerNoExp : NostrEvent :=
  { id := "o2", pubkey := "bob", created_at := 50, kind := 1491,
    tags := [["t", "chess-offer"]], content := "y" }

/-- C7 counterexample theorem (see `c7offerEq`, `c7offerNoExp`). -/
theorem c7_counterexample :
    subscribeToGameOffersDelivers 100 c7offerEq = true ∧
    getTagValue c7offerEq "expires" = some "100" ∧
    ¬((100 : Int) > 100) ∧
    getAvailableOffersKeep 100 c7offerNoExp = true ∧
    getTagValue c7offerNoExp "expires" = none := by
  refine ⟨by decide, by decide, by decide, by decide, by decide⟩

/-- C7 (amended): `getAvailableOffers` returns exactly the queried events
whose `expires` tag is absent, empty, or parses to a value strictly greater
than now; the subscription path delivers an event iff its `expires` tag is
absent, empty, or does not parse strictly below now (so expiry equal to the
current second is still delivered).  Neither path excludes offers that are
superseded by an observed acceptance - no acceptance data enters either
computation. -/
theorem c7_amended_expiry_filter (now : Int) (events : List NostrEvent)
    (e : NostrEvent) :
    (e ∈ getAvailableOffers now events ↔
      e ∈ events ∧ (getTagValue e "expires" = none ∨ getTagValue e "expires" = some "" ∨
        ∃ s, getTagValue e "expires" = some s ∧ jsGt (jsParseInt s) now = true)) ∧
    (subscribeToGameOffersDelivers now e = true ↔
      (getTagValue e "expires" = none ∨ getTagValue e "expires" = some "" ∨
        ∃ s, getTagValue e "expires" = some s ∧ jsLt (jsParseInt s) now = false)) := by
  have hkeep : getAvailableOffersKeep now e = true ↔
      (getTagValue e "expires" = none ∨ getTagValue e "expires" = some "" ∨
        ∃ s, getTagValue e "expires" = some s ∧ jsGt (jsParseInt s) now = true) := by
    rw [getAvailableOffersKeep]
    cases h : getTagValue e "expires" with
    | none => simp
    | some s =>
      by_cases hs : s = ""
      · subst hs
        simp
      · simp [hs]
  constructor
  · rw [getAvailableOffers, List.mem_filter, hkeep]
  · rw [subscribeToGameOffersDelivers]
    cases h : getTagValue e "expires" with
    | none => simp
    | some s =>
      by_cases hs : s = ""
      · subst hs
        simp
      · simp [hs]

/-- An offer whose skill tier and time control lie outside every enumerated
option set, for the C8 counterexample. -/
def c8badOffer : OfferParams :=
  { variant := "classical", skillLevel := "galactic-overlord",
    timeControl := "whenever", message := none }

/-- C8 counterexample: `publishGameOffer` on an initialized service accepts
and publishes an offer whose skill tier is not one of the enumerated
`SkillLevel` values - no InvalidParameters failure occurs. -/
theorem c8_counterexample :
    c8badOffer.skillLevel ∉ skillLevels ∧
    (publishGameOffer true c8badOffer 100).isSome = true ∧
    publishGameOffer true c8badOffer 100 = some (createGameOfferEvent c8badOffer 100) := by
  refine ⟨by decide, by decide, by decide⟩

/-- C8 (amended): `publishGameOffer` performs no validation of the offer
fields - it fails only when the service is uninitialized, and otherwise
constructs and publishes the offer event for arbitrary supplied strings. -/
theorem c8_amended_no_validation (initialized : Bool) (offer : OfferParams)
    (now : Int) :
    ((publishGameOffer initialized offer now).isSome = true ↔ initialized = true) ∧
    publishGameOffer true offer now = some (createGameOfferEvent offer now) := by
  constructor
  · cases initialized <;> simp [publishGameOffer]
  · rfl

/-- A stored offer issued by `bobpub`, for the C9 counterexample. -/
def c9offer : GameOffer :=
  { id := "o1", pubkey := "bobpub", eventId := "evt1", expires := 500 }

/-- C9 counterexample: `cancelGameOffer` removes a stored offer with the
given id without any issuer check (the caller's identity is not even an
input of the action), it changes the offer set, has no failure path and
publishes nothing - contradicting "fails with NotOwner and leaves the offer
set unchanged" for non-issuer callers. -/
theorem c9_counterexample :
    c9offer.pubkey ≠ "alicepub" ∧
    cancelGameOffer [c9offer] "o1" = [] ∧
    [c9offer] ≠ ([] : List GameOffer) := by
  refine ⟨by decide, by decide, by decide⟩

/-- C9 (amended): `cancelGameOffer` unconditionally removes from the local
`myOffers` list exactly the offers whose id equals `offerId`, regardless of
issuer; every other offer is retained.  It never fails and publishes no
cancellation message. -/
theorem c9_amended_local_removal (myOffers : List GameOffer) (offerId : String)
    (o : GameOffer) :
    o ∈ cancelGameOffer myOffers offerId ↔ o ∈ myOffers ∧ o.id ≠ offerId := by
  simp [cancelGameOffer, List.mem_filter]

/-- C10: every event built by `createGameOfferEvent`, regardless of the
offer parameters, carries an `expires` tag equal to the invocation time in
unix seconds plus exactly 300, and is timestamped with that invocation
time. -/
theorem c10_offer_expires_in_300 (offer : OfferParams) (now : Int) :
    getTagValueT (createGameOfferEvent offer now) "expires" =
      some (toString (now + 300)) ∧
    (createGameOfferEvent offer now).created_at = now := by
  exact ⟨rfl, rfl⟩
